import Mathlib

/-!
Shallow embedding of the `ecs_inheritance_patterns` crate (the canonical copy
under `src/src/`): the domain model of `pet_module.rs` and the gateway
`PetState` of `pet_module/pet_state.rs`, together with theorems settling the
specification claims about them.

The `specs` entity-component `World` (an external collaborator) is modelled by
its contract as used here: each component kind is a `VecStorage`, a partial map
from entity index to component value; `create_entity` allocates successive
indices; a `join` over several storages visits exactly the entities present in
every requested storage, in ascending index order (the order `specs` iterates
the intersected bit masks), which is creation order for this program.
-/

/-- Model of a Rust `f64` value by its 64-bit pattern. The program only stores
and copies `tail_length` values — it performs no floating-point arithmetic or
comparison — so a token with decidable equality is a faithful model. -/
structure F64 where
  bits : Nat
deriving DecidableEq, Repr

/-- Base data shared by all pets (`PetData` in pet_module.rs). -/
structure PetData where
  uuid : String
  name : String
deriving DecidableEq, Repr

/-- Data shared by all mammals (`MammalData` in pet_module.rs). -/
structure MammalData where
  hair_color : String
  breed : String
  has_hair : Bool
deriving DecidableEq, Repr

/-- Dog-specific data (`DogData` in pet_module.rs). `num_commands_known` is a
Rust `i32`; the program never computes with it, so `Int` models it. -/
structure DogData where
  tail_length : F64
  num_commands_known : Int
deriving DecidableEq, Repr

/-- Cat-specific data (`CatData` in pet_module.rs). -/
structure CatData where
  declawed : Bool
  sits_on_keyboard : Bool
deriving DecidableEq, Repr

/-- A dog record composed of the three data structures (`Dog` in pet_module.rs). -/
structure Dog where
  pet : PetData
  mammal : MammalData
  dog_specific : DogData
deriving DecidableEq, Repr

/-- A cat record composed of the three data structures (`Cat` in pet_module.rs). -/
structure Cat where
  pet : PetData
  mammal : MammalData
  cat_specific : CatData
deriving DecidableEq, Repr

/-- Closed polymorphic wrapper over dogs and cats (`Mammal` in pet_module.rs). -/
inductive Mammal where
  | Dog (d : Dog)
  | Cat (c : Cat)
deriving DecidableEq, Repr

/-- `Mammal::pet_data`. -/
def Mammal.pet_data : Mammal → PetData
  | .Dog d => d.pet
  | .Cat c => c.pet

/-- `Mammal::mammal_data`. -/
def Mammal.mammal_data : Mammal → MammalData
  | .Dog d => d.mammal
  | .Cat c => c.mammal

/-- `Mammal::make_sound`. -/
def Mammal.make_sound : Mammal → String
  | .Dog _ => "Woof!"
  | .Cat _ => "Meow!"

/-- `Mammal::name`. -/
def Mammal.name (m : Mammal) : String :=
  m.pet_data.name

/-- `Mammal::uuid`. -/
def Mammal.uuid (m : Mammal) : String :=
  m.pet_data.uuid

/-- `Mammal::hair_color`. -/
def Mammal.hair_color (m : Mammal) : String :=
  m.mammal_data.hair_color

/-- `Mammal::is_dog`. -/
def Mammal.is_dog : Mammal → Bool
  | .Dog _ => true
  | .Cat _ => false

/-- `Mammal::is_cat`. -/
def Mammal.is_cat : Mammal → Bool
  | .Dog _ => false
  | .Cat _ => true

/-- `Mammal::as_dog`. The result type `Option Dog` (the record type) is left
to inference because the constructor `Mammal.Dog` shadows the record name in
this namespace. -/
def Mammal.as_dog (m : Mammal) :=
  match m with
  | Mammal.Dog d => some d
  | Mammal.Cat _ => none

/-- `Mammal::as_cat`. -/
def Mammal.as_cat (m : Mammal) :=
  match m with
  | Mammal.Cat c => some c
  | Mammal.Dog _ => none

/-- ECS component for the Pet table (`PetComponent` in pet_state.rs). -/
structure PetComponent where
  uuid : String
  name : String
deriving DecidableEq, Repr

/-- ECS component for the Mammal table (`MammalComponent` in pet_state.rs). -/
structure MammalComponent where
  hair_color : String
  breed : String
  has_hair : Bool
deriving DecidableEq, Repr

/-- ECS component for the Dog table (`DogComponent` in pet_state.rs). -/
structure DogComponent where
  tail_length : F64
  num_commands_known : Int
deriving DecidableEq, Repr

/-- ECS component for the Cat table (`CatComponent` in pet_state.rs). -/
structure CatComponent where
  declawed : Bool
  sits_on_keyboard : Bool
deriving DecidableEq, Repr

/-- Placeholder component (`ReptileComponent` in pet_state.rs): registered but
never inserted by any operation. -/
structure ReptileComponent where
  scale_color : String
  is_poisonous : Bool
deriving DecidableEq, Repr

/-- Placeholder component (`TurtleComponent` in pet_state.rs). -/
structure TurtleComponent where
  is_aquatic : Bool
  is_soft_shelled : Bool
deriving DecidableEq, Repr

/-- Placeholder component (`SnakeComponent` in pet_state.rs). -/
structure SnakeComponent where
  length : F64
deriving DecidableEq, Repr

/-- `impl From<&PetComponent> for PetData`. -/
def PetComponent.toData (c : PetComponent) : PetData :=
  { uuid := c.uuid, name := c.name }

/-- `impl From<&MammalComponent> for MammalData`. -/
def MammalComponent.toData (c : MammalComponent) : MammalData :=
  { hair_color := c.hair_color, breed := c.breed, has_hair := c.has_hair }

/-- `impl From<&DogComponent> for DogData`. -/
def DogComponent.toData (c : DogComponent) : DogData :=
  { tail_length := c.tail_length, num_commands_known := c.num_commands_known }

/-- `impl From<&CatComponent> for CatData`. -/
def CatComponent.toData (c : CatComponent) : CatData :=
  { declawed := c.declawed, sits_on_keyboard := c.sits_on_keyboard }

/-- Modelled from the spec: `Uuid::new_v4().to_string()` comes from the
external `uuid` crate, which is not part of this repository. The spec
describes it as generating "a fresh globally-unique identifier string"
(probabilistically unique), so the generator is modelled as a seed threaded
through the store together with an injective rendering of the seed; which
concrete string is minted is irrelevant to every claim, only freshness is. -/
def mintUuid (seed : Nat) : String :=
  String.mk (List.replicate (seed + 1) 'u')

theorem mintUuid_injective {k1 k2 : Nat} (h : mintUuid k1 = mintUuid k2) : k1 = k2 := by
  have hlen := congrArg (fun s => s.data.length) h
  simpa [mintUuid] using hlen

/-- The gateway (`PetState` in pet_state.rs). The `specs::World` field is
modelled by one partial map per registered component kind (each `VecStorage`
maps entity index to component) plus the entity allocator's next index and the
seed of the uuid generator. `new` registers the seven component kinds; here
every storage starts empty. -/
structure PetState where
  nextEntity : Nat
  uuidSeed : Nat
  petStorage : Nat → Option PetComponent
  mammalStorage : Nat → Option MammalComponent
  reptileStorage : Nat → Option ReptileComponent
  dogStorage : Nat → Option DogComponent
  catStorage : Nat → Option CatComponent
  turtleStorage : Nat → Option TurtleComponent
  snakeStorage : Nat → Option SnakeComponent

/-- `PetState::new`: an empty world with all component kinds registered. -/
def PetState.new : PetState :=
  { nextEntity := 0
    uuidSeed := 0
    petStorage := fun _ => none
    mammalStorage := fun _ => none
    reptileStorage := fun _ => none
    dogStorage := fun _ => none
    catStorage := fun _ => none
    turtleStorage := fun _ => none
    snakeStorage := fun _ => none }

/-- `PetState::add_dog`: mints a fresh uuid and creates one entity carrying a
`PetComponent`, a `MammalComponent` and a `DogComponent`; returns the updated
state together with the uuid (the Rust method mutates `&mut self`). -/
def PetState.add_dog (s : PetState) (name hair_color breed : String)
    (has_hair : Bool) (tail_length : F64) (num_commands_known : Int) :
    PetState × String :=
  let uuid := mintUuid s.uuidSeed
  let e := s.nextEntity
  ({ s with
      nextEntity := e + 1
      uuidSeed := s.uuidSeed + 1
      petStorage := fun x => if x = e then some { uuid := uuid, name := name } else s.petStorage x
      mammalStorage := fun x =>
        if x = e then some { hair_color := hair_color, breed := breed, has_hair := has_hair }
        else s.mammalStorage x
      dogStorage := fun x =>
        if x = e then some { tail_length := tail_length, num_commands_known := num_commands_known }
        else s.dogStorage x },
    uuid)

/-- `PetState::add_cat`: like `add_dog` with a `CatComponent` in place of the
`DogComponent`. -/
def PetState.add_cat (s : PetState) (name hair_color breed : String)
    (has_hair : Bool) (declawed : Bool) (sits_on_keyboard : Bool) :
    PetState × String :=
  let uuid := mintUuid s.uuidSeed
  let e := s.nextEntity
  ({ s with
      nextEntity := e + 1
      uuidSeed := s.uuidSeed + 1
      petStorage := fun x => if x = e then some { uuid := uuid, name := name } else s.petStorage x
      mammalStorage := fun x =>
        if x = e then some { hair_color := hair_color, breed := breed, has_hair := has_hair }
        else s.mammalStorage x
      catStorage := fun x =>
        if x = e then some { declawed := declawed, sits_on_keyboard := sits_on_keyboard }
        else s.catStorage x },
    uuid)

/-- `Dog::create` in pet_module.rs: threads the state through `add_dog`. -/
def Dog.create (ps : PetState) (name hair_color breed : String)
    (has_hair : Bool) (tail_length : F64) (num_commands_known : Int) :
    PetState × String :=
  ps.add_dog name hair_color breed has_hair tail_length num_commands_known

/-- `Cat::create` in pet_module.rs: threads the state through `add_cat`. -/
def Cat.create (ps : PetState) (name hair_color breed : String)
    (has_hair : Bool) (declawed : Bool) (sits_on_keyboard : Bool) :
    PetState × String :=
  ps.add_cat name hair_color breed has_hair declawed sits_on_keyboard

/-- One step of the `(&dogs, &mammals, &pets).join()` scan: the joined triple
for entity `e` when `e` is present in all three storages. -/
def PetState.dogRowAt (s : PetState) (e : Nat) :
    Option (DogComponent × MammalComponent × PetComponent) :=
  match s.dogStorage e, s.mammalStorage e, s.petStorage e with
  | some d, some m, some p => some (d, m, p)
  | _, _, _ => none

/-- One step of the `(&cats, &mammals, &pets).join()` scan. -/
def PetState.catRowAt (s : PetState) (e : Nat) :
    Option (CatComponent × MammalComponent × PetComponent) :=
  match s.catStorage e, s.mammalStorage e, s.petStorage e with
  | some c, some m, some p => some (c, m, p)
  | _, _, _ => none

/-- The `(&dogs, &mammals, &pets).join()` scan shared by `get_all_dogs` and
`get_dog_by_id`: every allocated entity present in all three storages, in
ascending entity order. -/
def PetState.joinDogRows (s : PetState) : List (DogComponent × MammalComponent × PetComponent) :=
  (List.range s.nextEntity).filterMap s.dogRowAt

/-- The `(&cats, &mammals, &pets).join()` scan of `get_all_cats`. -/
def PetState.joinCatRows (s : PetState) : List (CatComponent × MammalComponent × PetComponent) :=
  (List.range s.nextEntity).filterMap s.catRowAt

/-- Assembly of a joined triple into a `Dog` record (the `map` closure of
`get_all_dogs`). -/
def dogOfRow (r : DogComponent × MammalComponent × PetComponent) : Dog :=
  { pet := r.2.2.toData, mammal := r.2.1.toData, dog_specific := r.1.toData }

/-- Assembly of a joined triple into a `Cat` record (the `map` closure of
`get_all_cats`). -/
def catOfRow (r : CatComponent × MammalComponent × PetComponent) : Cat :=
  { pet := r.2.2.toData, mammal := r.2.1.toData, cat_specific := r.1.toData }

/-- `PetState::get_all_dogs`. -/
def PetState.get_all_dogs (s : PetState) : List Dog :=
  s.joinDogRows.map dogOfRow

/-- `PetState::get_all_cats`. -/
def PetState.get_all_cats (s : PetState) : List Cat :=
  s.joinCatRows.map catOfRow

/-- `PetState::get_all_mammals`: dogs wrapped as `Mammal::Dog` chained with
cats wrapped as `Mammal::Cat`. -/
def PetState.get_all_mammals (s : PetState) : List Mammal :=
  s.get_all_dogs.map Mammal.Dog ++ s.get_all_cats.map Mammal.Cat

/-- `PetState::get_mammals_by_hair_color`: filters `get_all_mammals` by exact
string equality on `hair_color`. -/
def PetState.get_mammals_by_hair_color (s : PetState) (hair_color : String) : List Mammal :=
  s.get_all_mammals.filter fun m => m.mammal_data.hair_color == hair_color

/-- `PetState::get_dog_by_id`: the same three-way join, stopping at the first
row whose pet uuid equals the argument. -/
def PetState.get_dog_by_id (s : PetState) (uuid : String) : Option Dog :=
  (s.joinDogRows.find? fun r => r.2.2.uuid == uuid).map dogOfRow

/-- States reachable through the public API: `PetState::new` followed by any
sequence of gateway creation calls. -/
inductive Reachable : PetState → Prop
  | new : Reachable PetState.new
  | add_dog (s : PetState) (name hair_color breed : String) (has_hair : Bool)
      (tail_length : F64) (num_commands_known : Int) :
      Reachable s →
      Reachable (s.add_dog name hair_color breed has_hair tail_length num_commands_known).1
  | add_cat (s : PetState) (name hair_color breed : String) (has_hair : Bool)
      (declawed : Bool) (sits_on_keyboard : Bool) :
      Reachable s →
      Reachable (s.add_cat name hair_color breed has_hair declawed sits_on_keyboard).1

/-- Invariants maintained by the gateway over its store: storages are empty
beyond the allocator's frontier; every stored pet uuid was minted from a seed
already consumed; distinct entities carry distinct pet uuids; and every entity
carrying a dog or cat fragment also carries its pet and mammal fragments. -/
structure StateInv (s : PetState) : Prop where
  pet_bound : ∀ e, s.nextEntity ≤ e → s.petStorage e = none
  mammal_bound : ∀ e, s.nextEntity ≤ e → s.mammalStorage e = none
  dog_bound : ∀ e, s.nextEntity ≤ e → s.dogStorage e = none
  cat_bound : ∀ e, s.nextEntity ≤ e → s.catStorage e = none
  uuid_bound : ∀ e p, s.petStorage e = some p → ∃ k, k < s.uuidSeed ∧ p.uuid = mintUuid k
  uuid_distinct : ∀ e1 e2 p1 p2, s.petStorage e1 = some p1 → s.petStorage e2 = some p2 →
    p1.uuid = p2.uuid → e1 = e2
  subtype_complete : ∀ e, (s.dogStorage e).isSome ∨ (s.catStorage e).isSome →
    (s.petStorage e).isSome ∧ (s.mammalStorage e).isSome

theorem stateInv_new : StateInv PetState.new := by
  constructor <;> intro e <;> simp [PetState.new]

theorem stateInv_add_dog (s : PetState) (name hair_color breed : String) (has_hair : Bool)
    (tail_length : F64) (num_commands_known : Int) (h : StateInv s) :
    StateInv (s.add_dog name hair_color breed has_hair tail_length num_commands_known).1 := by
  constructor
  · intro e he
    simp only [PetState.add_dog] at he ⊢
    rw [if_neg (by omega)]
    exact h.pet_bound e (by omega)
  · intro e he
    simp only [PetState.add_dog] at he ⊢
    rw [if_neg (by omega)]
    exact h.mammal_bound e (by omega)
  · intro e he
    simp only [PetState.add_dog] at he ⊢
    rw [if_neg (by omega)]
    exact h.dog_bound e (by omega)
  · intro e he
    simp only [PetState.add_dog] at he ⊢
    exact h.cat_bound e (by omega)
  · intro e p hp
    simp only [PetState.add_dog] at hp ⊢
    by_cases hcase : e = s.nextEntity
    · rw [if_pos hcase] at hp
      refine ⟨s.uuidSeed, by omega, ?_⟩
      cases hp
      rfl
    · rw [if_neg hcase] at hp
      obtain ⟨k, hk, hu⟩ := h.uuid_bound e p hp
      exact ⟨k, by omega, hu⟩
  · intro e1 e2 p1 p2 hp1 hp2 huu
    simp only [PetState.add_dog] at hp1 hp2
    by_cases hc1 : e1 = s.nextEntity <;> by_cases hc2 : e2 = s.nextEntity
    · omega
    · rw [if_pos hc1] at hp1
      rw [if_neg hc2] at hp2
      obtain ⟨k, hk, hu⟩ := h.uuid_bound e2 p2 hp2
      cases hp1
      rw [hu] at huu
      have := mintUuid_injective huu
      omega
    · rw [if_neg hc1] at hp1
      rw [if_pos hc2] at hp2
      obtain ⟨k, hk, hu⟩ := h.uuid_bound e1 p1 hp1
      cases hp2
      rw [hu] at huu
      have := mintUuid_injective huu
      omega
    · rw [if_neg hc1] at hp1
      rw [if_neg hc2] at hp2
      exact h.uuid_distinct e1 e2 p1 p2 hp1 hp2 huu
  · intro e he
    simp only [PetState.add_dog] at he ⊢
    by_cases hcase : e = s.nextEntity
    · rw [if_pos hcase, if_pos hcase]
      simp
    · rw [if_neg hcase] at he ⊢
      rw [if_neg hcase]
      exact h.subtype_complete e (by simpa [if_neg hcase] using he)

theorem stateInv_add_cat (s : PetState) (name hair_color breed : String) (has_hair : Bool)
    (declawed : Bool) (sits_on_keyboard : Bool) (h : StateInv s) :
    StateInv (s.add_cat name hair_color breed has_hair declawed sits_on_keyboard).1 := by
  constructor
  · intro e he
    simp only [PetState.add_cat] at he ⊢
    rw [if_neg (by omega)]
    exact h.pet_bound e (by omega)
  · intro e he
    simp only [PetState.add_cat] at he ⊢
    rw [if_neg (by omega)]
    exact h.mammal_bound e (by omega)
  · intro e he
    simp only [PetState.add_cat] at he ⊢
    exact h.dog_bound e (by omega)
  · intro e he
    simp only [PetState.add_cat] at he ⊢
    rw [if_neg (by omega)]
    exact h.cat_bound e (by omega)
  · intro e p hp
    simp only [PetState.add_cat] at hp ⊢
    by_cases hcase : e = s.nextEntity
    · rw [if_pos hcase] at hp
      refine ⟨s.uuidSeed, by omega, ?_⟩
      cases hp
      rfl
    · rw [if_neg hcase] at hp
      obtain ⟨k, hk, hu⟩ := h.uuid_bound e p hp
      exact ⟨k, by omega, hu⟩
  · intro e1 e2 p1 p2 hp1 hp2 huu
    simp only [PetState.add_cat] at hp1 hp2
    by_cases hc1 : e1 = s.nextEntity <;> by_cases hc2 : e2 = s.nextEntity
    · omega
    · rw [if_pos hc1] at hp1
      rw [if_neg hc2] at hp2
      obtain ⟨k, hk, hu⟩ := h.uuid_bound e2 p2 hp2
      cases hp1
      rw [hu] at huu
      have := mintUuid_injective huu
      omega
    · rw [if_neg hc1] at hp1
      rw [if_pos hc2] at hp2
      obtain ⟨k, hk, hu⟩ := h.uuid_bound e1 p1 hp1
      cases hp2
      rw [hu] at huu
      have := mintUuid_injective huu
      omega
    · rw [if_neg hc1] at hp1
      rw [if_neg hc2] at hp2
      exact h.uuid_distinct e1 e2 p1 p2 hp1 hp2 huu
  · intro e he
    simp only [PetState.add_cat] at he ⊢
    by_cases hcase : e = s.nextEntity
    · rw [if_pos hcase, if_pos hcase]
      simp
    · rw [if_neg hcase] at he ⊢
      rw [if_neg hcase]
      exact h.subtype_complete e (by simpa [if_neg hcase] using he)

theorem reachable_stateInv {s : PetState} (h : Reachable s) : StateInv s := by
  induction h with
  | new => exact stateInv_new
  | add_dog s name hair_color breed has_hair tail_length num_commands_known _ ih =>
    exact stateInv_add_dog s name hair_color breed has_hair tail_length num_commands_known ih
  | add_cat s name hair_color breed has_hair declawed sits_on_keyboard _ ih =>
    exact stateInv_add_cat s name hair_color breed has_hair declawed sits_on_keyboard ih

theorem find?_eq_head?_filter {α : Type} (p : α → Bool) (l : List α) :
    l.find? p = (l.filter p).head? := by
  induction l with
  | nil => rfl
  | cons a t ih =>
    by_cases h : p a
    · rw [List.find?_cons_of_pos t h, List.filter_cons_of_pos h]
      rfl
    · rw [List.find?_cons_of_neg t h, List.filter_cons_of_neg h, ih]

theorem length_filterMap_isSome {α β : Type} (f : α → Option β) (l : List α) :
    (l.filterMap f).length = (l.filter fun a => (f a).isSome).length := by
  induction l with
  | nil => rfl
  | cons a t ih =>
    cases hfa : f a <;> simp [List.filterMap_cons, List.filter_cons, hfa, ih]

theorem dogRowAt_eq_some {s : PetState} {e : Nat}
    {r : DogComponent × MammalComponent × PetComponent} :
    s.dogRowAt e = some r ↔
      s.dogStorage e = some r.1 ∧ s.mammalStorage e = some r.2.1 ∧
        s.petStorage e = some r.2.2 := by
  obtain ⟨d0, m0, p0⟩ := r
  unfold PetState.dogRowAt
  cases s.dogStorage e <;> cases s.mammalStorage e <;> cases s.petStorage e <;>
    simp

theorem catRowAt_eq_some {s : PetState} {e : Nat}
    {r : CatComponent × MammalComponent × PetComponent} :
    s.catRowAt e = some r ↔
      s.catStorage e = some r.1 ∧ s.mammalStorage e = some r.2.1 ∧
        s.petStorage e = some r.2.2 := by
  obtain ⟨c0, m0, p0⟩ := r
  unfold PetState.catRowAt
  cases s.catStorage e <;> cases s.mammalStorage e <;> cases s.petStorage e <;>
    simp

theorem dogRowAt_isSome (s : PetState) (e : Nat) :
    (s.dogRowAt e).isSome =
      ((s.dogStorage e).isSome && (s.mammalStorage e).isSome && (s.petStorage e).isSome) := by
  unfold PetState.dogRowAt
  cases s.dogStorage e <;> cases s.mammalStorage e <;> cases s.petStorage e <;> rfl

theorem dogRowAt_add_cat {s : PetState} {name hair_color breed : String} {has_hair : Bool}
    {declawed : Bool} {sits_on_keyboard : Bool} {e : Nat} (hne : e ≠ s.nextEntity) :
    (s.add_cat name hair_color breed has_hair declawed sits_on_keyboard).1.dogRowAt e =
      s.dogRowAt e := by
  simp only [PetState.add_cat, PetState.dogRowAt, if_neg hne]

theorem dogRowAt_add_cat_top {s : PetState} {name hair_color breed : String} {has_hair : Bool}
    {declawed : Bool} {sits_on_keyboard : Bool} (h : StateInv s) :
    (s.add_cat name hair_color breed has_hair declawed sits_on_keyboard).1.dogRowAt
      s.nextEntity = none := by
  simp only [PetState.add_cat, PetState.dogRowAt]
  rw [h.dog_bound s.nextEntity (Nat.le_refl _)]

theorem catRowAt_add_dog {s : PetState} {name hair_color breed : String} {has_hair : Bool}
    {tail_length : F64} {num_commands_known : Int} {e : Nat} (hne : e ≠ s.nextEntity) :
    (s.add_dog name hair_color breed has_hair tail_length num_commands_known).1.catRowAt e =
      s.catRowAt e := by
  simp only [PetState.add_dog, PetState.catRowAt, if_neg hne]

theorem catRowAt_add_dog_top {s : PetState} {name hair_color breed : String} {has_hair : Bool}
    {tail_length : F64} {num_commands_known : Int} (h : StateInv s) :
    (s.add_dog name hair_color breed has_hair tail_length num_commands_known).1.catRowAt
      s.nextEntity = none := by
  simp only [PetState.add_dog, PetState.catRowAt]
  rw [h.cat_bound s.nextEntity (Nat.le_refl _)]

theorem dogRowAt_add_dog {s : PetState} {name hair_color breed : String} {has_hair : Bool}
    {tail_length : F64} {num_commands_known : Int} {e : Nat} (hne : e ≠ s.nextEntity) :
    (s.add_dog name hair_color breed has_hair tail_length num_commands_known).1.dogRowAt e =
      s.dogRowAt e := by
  simp only [PetState.add_dog, PetState.dogRowAt, if_neg hne]

theorem dogRowAt_add_dog_top (s : PetState) (name hair_color breed : String) (has_hair : Bool)
    (tail_length : F64) (num_commands_known : Int) :
    (s.add_dog name hair_color breed has_hair tail_length num_commands_known).1.dogRowAt
      s.nextEntity =
      some ({ tail_length := tail_length, num_commands_known := num_commands_known },
        { hair_color := hair_color, breed := breed, has_hair := has_hair },
        { uuid := mintUuid s.uuidSeed, name := name }) := by
  simp [PetState.add_dog, PetState.dogRowAt]

theorem catRowAt_add_cat {s : PetState} {name hair_color breed : String} {has_hair : Bool}
    {declawed : Bool} {sits_on_keyboard : Bool} {e : Nat} (hne : e ≠ s.nextEntity) :
    (s.add_cat name hair_color breed has_hair declawed sits_on_keyboard).1.catRowAt e =
      s.catRowAt e := by
  simp only [PetState.add_cat, PetState.catRowAt, if_neg hne]

theorem catRowAt_add_cat_top (s : PetState) (name hair_color breed : String) (has_hair : Bool)
    (declawed : Bool) (sits_on_keyboard : Bool) :
    (s.add_cat name hair_color breed has_hair declawed sits_on_keyboard).1.catRowAt
      s.nextEntity =
      some ({ declawed := declawed, sits_on_keyboard := sits_on_keyboard },
        { hair_color := hair_color, breed := breed, has_hair := has_hair },
        { uuid := mintUuid s.uuidSeed, name := name }) := by
  simp [PetState.add_cat, PetState.catRowAt]

theorem joinDogRows_add_cat (s : PetState) (name hair_color breed : String) (has_hair : Bool)
    (declawed : Bool) (sits_on_keyboard : Bool) (h : StateInv s) :
    (s.add_cat name hair_color breed has_hair declawed sits_on_keyboard).1.joinDogRows =
      s.joinDogRows := by
  have hn : (s.add_cat name hair_color breed has_hair declawed
      sits_on_keyboard).1.nextEntity = s.nextEntity + 1 := rfl
  unfold PetState.joinDogRows
  rw [hn, List.range_succ, List.filterMap_append]
  rw [List.filterMap_congr fun e he =>
    dogRowAt_add_cat (Nat.ne_of_lt (List.mem_range.mp he))]
  simp [dogRowAt_add_cat_top h]

theorem joinCatRows_add_dog (s : PetState) (name hair_color breed : String) (has_hair : Bool)
    (tail_length : F64) (num_commands_known : Int) (h : StateInv s) :
    (s.add_dog name hair_color breed has_hair tail_length num_commands_known).1.joinCatRows =
      s.joinCatRows := by
  have hn : (s.add_dog name hair_color breed has_hair tail_length
      num_commands_known).1.nextEntity = s.nextEntity + 1 := rfl
  unfold PetState.joinCatRows
  rw [hn, List.range_succ, List.filterMap_append]
  rw [List.filterMap_congr fun e he =>
    catRowAt_add_dog (Nat.ne_of_lt (List.mem_range.mp he))]
  simp [catRowAt_add_dog_top h]

theorem joinDogRows_add_dog (s : PetState) (name hair_color breed : String) (has_hair : Bool)
    (tail_length : F64) (num_commands_known : Int) :
    (s.add_dog name hair_color breed has_hair tail_length num_commands_known).1.joinDogRows =
      s.joinDogRows ++
        [({ tail_length := tail_length, num_commands_known := num_commands_known },
          { hair_color := hair_color, breed := breed, has_hair := has_hair },
          { uuid := mintUuid s.uuidSeed, name := name })] := by
  have hn : (s.add_dog name hair_color breed has_hair tail_length
      num_commands_known).1.nextEntity = s.nextEntity + 1 := rfl
  unfold PetState.joinDogRows
  rw [hn, List.range_succ, List.filterMap_append]
  rw [List.filterMap_congr fun e he =>
    dogRowAt_add_dog (Nat.ne_of_lt (List.mem_range.mp he))]
  simp [dogRowAt_add_dog_top]

theorem joinCatRows_add_cat (s : PetState) (name hair_color breed : String) (has_hair : Bool)
    (declawed : Bool) (sits_on_keyboard : Bool) :
    (s.add_cat name hair_color breed has_hair declawed sits_on_keyboard).1.joinCatRows =
      s.joinCatRows ++
        [({ declawed := declawed, sits_on_keyboard := sits_on_keyboard },
          { hair_color := hair_color, breed := breed, has_hair := has_hair },
          { uuid := mintUuid s.uuidSeed, name := name })] := by
  have hn : (s.add_cat name hair_color breed has_hair declawed
      sits_on_keyboard).1.nextEntity = s.nextEntity + 1 := rfl
  unfold PetState.joinCatRows
  rw [hn, List.range_succ, List.filterMap_append]
  rw [List.filterMap_congr fun e he =>
    catRowAt_add_cat (Nat.ne_of_lt (List.mem_range.mp he))]
  simp [catRowAt_add_cat_top]

theorem get_all_dogs_pairwise_uuid {s : PetState} (h : StateInv s) :
    s.get_all_dogs.Pairwise fun d1 d2 => d1.pet.uuid ≠ d2.pet.uuid := by
  unfold PetState.get_all_dogs PetState.joinDogRows
  rw [List.pairwise_map, List.pairwise_filterMap]
  refine List.Pairwise.imp ?_ (List.pairwise_lt_range s.nextEntity)
  intro a b hab x hx y hy huu
  obtain ⟨_, _, hpa⟩ := dogRowAt_eq_some.mp (Option.mem_def.mp hx)
  obtain ⟨_, _, hpb⟩ := dogRowAt_eq_some.mp (Option.mem_def.mp hy)
  have : x.2.2.uuid = y.2.2.uuid := by
    simpa [dogOfRow, PetComponent.toData] using huu
  exact absurd (h.uuid_distinct a b x.2.2 y.2.2 hpa hpb this) (Nat.ne_of_lt hab)

theorem length_filter_uuid_le_one (u : String) (l : List Dog) :
    (l.Pairwise fun d1 d2 => d1.pet.uuid ≠ d2.pet.uuid) →
      (l.filter fun d => d.pet.uuid == u).length ≤ 1 := by
  induction l with
  | nil => intro _; simp
  | cons a t ih =>
    intro hp
    rw [List.pairwise_cons] at hp
    by_cases pa : a.pet.uuid = u
    · rw [List.filter_cons_of_pos (by simp [pa])]
      have ht : t.filter (fun d => d.pet.uuid == u) = [] := by
        rw [List.filter_eq_nil_iff]
        intro b hb hbu
        exact hp.1 b hb (by rw [pa]; exact (beq_iff_eq.mp hbu).symm)
      simp [ht]
    · rw [List.filter_cons_of_neg (by simp [pa])]
      exact ih hp.2

/-- Claim C1: on a fresh store, one `add_dog` (via `Dog::create`) followed by
`get_all_dogs` returns exactly one `Dog` record whose name, hair_color, breed,
has_hair, tail_length and num_commands_known equal the inputs supplied, and
whose uuid equals the string returned by the creation call. -/
theorem add_dog_then_get_all_dogs_roundtrip (name hair_color breed : String)
    (has_hair : Bool) (tail_length : F64) (num_commands_known : Int) :
    (Dog.create PetState.new name hair_color breed has_hair tail_length
        num_commands_known).1.get_all_dogs =
      [{ pet := { uuid := (Dog.create PetState.new name hair_color breed has_hair
                    tail_length num_commands_known).2,
                  name := name },
         mammal := { hair_color := hair_color, breed := breed, has_hair := has_hair },
         dog_specific := { tail_length := tail_length,
                           num_commands_known := num_commands_known } }] := rfl

/-- Claim C2: two consecutive creation calls on the same store — in particular
two calls with identical field values, for each of the four kind combinations
— return distinct uuid strings: identifier generation mints a fresh uuid per
created record. -/
theorem creation_uuids_distinct (s : PetState) (n1 h1 b1 : String) (hh1 : Bool)
    (t1 : F64) (k1 : Int) (n2 h2 b2 : String) (hh2 : Bool) (d2 k2 : Bool) :
    (((s.add_dog n1 h1 b1 hh1 t1 k1).1.add_dog n1 h1 b1 hh1 t1 k1).2 ≠
        (s.add_dog n1 h1 b1 hh1 t1 k1).2)
    ∧ (((s.add_dog n1 h1 b1 hh1 t1 k1).1.add_cat n2 h2 b2 hh2 d2 k2).2 ≠
        (s.add_dog n1 h1 b1 hh1 t1 k1).2)
    ∧ (((s.add_cat n2 h2 b2 hh2 d2 k2).1.add_dog n1 h1 b1 hh1 t1 k1).2 ≠
        (s.add_cat n2 h2 b2 hh2 d2 k2).2)
    ∧ (((s.add_cat n2 h2 b2 hh2 d2 k2).1.add_cat n2 h2 b2 hh2 d2 k2).2 ≠
        (s.add_cat n2 h2 b2 hh2 d2 k2).2) := by
  refine ⟨?_, ?_, ?_, ?_⟩ <;> intro hcontra <;>
    simp only [PetState.add_dog, PetState.add_cat] at hcontra <;>
    exact absurd (mintUuid_injective hcontra) (by omega)

/-- Claim C3: `get_all_mammals` is `get_all_dogs` wrapped as `Mammal::Dog`
followed by `get_all_cats` wrapped as `Mammal::Cat`; hence its length is the
sum of the two lengths, its prefix of length `get_all_dogs.length` is exactly
the dog block in store order, and the rest is exactly the cat block. -/
theorem get_all_mammals_concat_spec (s : PetState) :
    s.get_all_mammals = s.get_all_dogs.map Mammal.Dog ++ s.get_all_cats.map Mammal.Cat
    ∧ s.get_all_mammals.length = s.get_all_dogs.length + s.get_all_cats.length
    ∧ s.get_all_mammals.take s.get_all_dogs.length = s.get_all_dogs.map Mammal.Dog
    ∧ s.get_all_mammals.drop s.get_all_dogs.length = s.get_all_cats.map Mammal.Cat := by
  refine ⟨rfl, ?_, ?_, ?_⟩
  · simp [PetState.get_all_mammals]
  · show (s.get_all_dogs.map Mammal.Dog ++ s.get_all_cats.map Mammal.Cat).take
        s.get_all_dogs.length = s.get_all_dogs.map Mammal.Dog
    rw [show s.get_all_dogs.length = (s.get_all_dogs.map Mammal.Dog).length by simp]
    exact List.take_left _ _
  · show (s.get_all_dogs.map Mammal.Dog ++ s.get_all_cats.map Mammal.Cat).drop
        s.get_all_dogs.length = s.get_all_cats.map Mammal.Cat
    rw [show s.get_all_dogs.length = (s.get_all_dogs.map Mammal.Dog).length by simp]
    exact List.drop_left _ _

/-- Claim C4: `get_mammals_by_hair_color c` is a subsequence of
`get_all_mammals` (so it preserves relative order) containing exactly the
entries whose `hair_color` equals `c` under exact, case-sensitive string
equality: membership is characterised by the colour test, and each mammal
keeps its full multiplicity when its colour matches and disappears when it
does not. -/
theorem get_mammals_by_hair_color_spec (s : PetState) (c : String) :
    List.Sublist (s.get_mammals_by_hair_color c) s.get_all_mammals
    ∧ (∀ m : Mammal, m ∈ s.get_mammals_by_hair_color c ↔
        m ∈ s.get_all_mammals ∧ m.mammal_data.hair_color = c)
    ∧ (∀ m : Mammal, (s.get_mammals_by_hair_color c).count m =
        if m.mammal_data.hair_color = c then s.get_all_mammals.count m else 0) := by
  refine ⟨List.filter_sublist _, ?_, ?_⟩
  · intro m
    simp [PetState.get_mammals_by_hair_color, List.mem_filter]
  · intro m
    by_cases hm : m.mammal_data.hair_color = c
    · rw [if_pos hm]
      exact List.count_filter (by simp [hm])
    · rw [if_neg hm]
      rw [List.count_eq_zero]
      intro hmem
      unfold PetState.get_mammals_by_hair_color at hmem
      rw [List.mem_filter] at hmem
      exact hm (beq_iff_eq.mp hmem.2)

/-- Claim C5: `get_dog_by_id u` is present iff some dog in `get_all_dogs` has
pet uuid exactly `u` (absent otherwise, never failing), and the returned value
is the first element of `get_all_dogs` filtered to that uuid — on every
reachable store that filter has at most one element, so it is "the" record
with that uuid. -/
theorem get_dog_by_id_spec (s : PetState) (u : String) :
    ((s.get_dog_by_id u).isSome ↔ ∃ d ∈ s.get_all_dogs, d.pet.uuid = u)
    ∧ s.get_dog_by_id u = ((s.get_all_dogs.filter fun d => d.pet.uuid == u).head?)
    ∧ (Reachable s → (s.get_all_dogs.filter fun d => d.pet.uuid == u).length ≤ 1) := by
  refine ⟨?_, ?_, ?_⟩
  · have hs : (s.get_dog_by_id u).isSome =
        (s.joinDogRows.find? fun r => r.2.2.uuid == u).isSome := by
      unfold PetState.get_dog_by_id
      rw [Option.isSome_map']
    rw [hs, List.find?_isSome]
    constructor
    · rintro ⟨r, hr, hq⟩
      exact ⟨dogOfRow r, List.mem_map_of_mem _ hr,
        by simpa [dogOfRow, PetComponent.toData] using beq_iff_eq.mp hq⟩
    · rintro ⟨d, hd, hu⟩
      obtain ⟨r, hr, rfl⟩ := List.mem_map.mp hd
      refine ⟨r, hr, beq_iff_eq.mpr ?_⟩
      simpa [dogOfRow, PetComponent.toData] using hu
  · unfold PetState.get_dog_by_id PetState.get_all_dogs
    rw [List.filter_map, List.head?_map, ← find?_eq_head?_filter]
    rfl
  · intro hreach
    exact length_filter_uuid_le_one u _
      (get_all_dogs_pairwise_uuid (reachable_stateInv hreach))

theorem get_dog_by_id_spec_witness :
    (PetState.new.get_all_dogs.filter fun d => d.pet.uuid == "u").length ≤ 1 :=
  (get_dog_by_id_spec PetState.new "u").2.2 Reachable.new

/-- Claim C6: in every reachable store, an entity carrying a `DogComponent` or
a `CatComponent` also carries a `PetComponent` and a `MammalComponent`. Each
storage maps an entity to at most one component of its kind, so "exactly one"
of each is the `isSome` of the corresponding storage; the triple is attached
atomically by the creation calls and nothing else inserts fragments. -/
theorem fragment_triple_invariant (s : PetState) (h : Reachable s) :
    ∀ e, (s.dogStorage e).isSome ∨ (s.catStorage e).isSome →
      (s.petStorage e).isSome ∧ (s.mammalStorage e).isSome :=
  (reachable_stateInv h).subtype_complete

theorem fragment_triple_invariant_witness :
    (((PetState.new.add_dog "Rex" "brown" "boxer" true { bits := 10 } 15).1.petStorage
        0).isSome = true)
    ∧ (((PetState.new.add_dog "Rex" "brown" "boxer" true { bits := 10 } 15).1.mammalStorage
        0).isSome = true) :=
  fragment_triple_invariant _
    (Reachable.add_dog PetState.new "Rex" "brown" "boxer" true { bits := 10 } 15
      Reachable.new) 0 (Or.inl rfl)

/-- Claim C7: over any `Mammal` value, `is_dog` and `is_cat` are mutually
exclusive and exhaustive, `as_dog` is present exactly when `is_dog` holds and
`as_cat` exactly when `is_cat` holds (and each returns precisely the wrapped
record). -/
theorem mammal_predicates_spec (m : Mammal) :
    (m.is_dog = true ∨ m.is_cat = true)
    ∧ ¬(m.is_dog = true ∧ m.is_cat = true)
    ∧ m.as_dog.isSome = m.is_dog
    ∧ m.as_cat.isSome = m.is_cat
    ∧ (∀ d : Dog, m.as_dog = some d ↔ m = Mammal.Dog d)
    ∧ (∀ c : Cat, m.as_cat = some c ↔ m = Mammal.Cat c) := by
  cases m <;> simp [Mammal.is_dog, Mammal.is_cat, Mammal.as_dog, Mammal.as_cat]

/-- Claim C8: `make_sound` returns the constant "Woof!" on every `Mammal::Dog`
and the constant "Meow!" on every `Mammal::Cat`, independent of the fields of
the wrapped record. -/
theorem make_sound_spec :
    (∀ d : Dog, (Mammal.Dog d).make_sound = "Woof!")
    ∧ (∀ c : Cat, (Mammal.Cat c).make_sound = "Meow!") :=
  ⟨fun _ => rfl, fun _ => rfl⟩

/-- Claim C9: `get_all_dogs` on a fresh store is the empty sequence, and on
every store it is total: its length is the number of allocated entities
present in all three of the Dog, Mammal and Pet storages, and its members are
exactly the records assembled from those joined triples (so it is empty
exactly when no entity has all three fragments). -/
theorem get_all_dogs_join_spec :
    PetState.new.get_all_dogs = []
    ∧ (∀ s : PetState, s.get_all_dogs.length =
        ((List.range s.nextEntity).filter fun e =>
          (s.dogStorage e).isSome && (s.mammalStorage e).isSome &&
            (s.petStorage e).isSome).length)
    ∧ (∀ s : PetState, ∀ d : Dog, d ∈ s.get_all_dogs ↔
        ∃ e ∈ List.range s.nextEntity, ∃ dc mc pc,
          s.dogStorage e = some dc ∧ s.mammalStorage e = some mc ∧
            s.petStorage e = some pc ∧
            d = { pet := pc.toData, mammal := mc.toData, dog_specific := dc.toData }) := by
  refine ⟨rfl, ?_, ?_⟩
  · intro s
    unfold PetState.get_all_dogs PetState.joinDogRows
    rw [List.length_map, length_filterMap_isSome,
      List.filter_congr fun e _ => dogRowAt_isSome s e]
  · intro s d
    unfold PetState.get_all_dogs PetState.joinDogRows
    rw [List.mem_map]
    constructor
    · rintro ⟨r, hr, rfl⟩
      obtain ⟨e, he, hre⟩ := List.mem_filterMap.mp hr
      obtain ⟨h1, h2, h3⟩ := dogRowAt_eq_some.mp hre
      exact ⟨e, he, r.1, r.2.1, r.2.2, h1, h2, h3, rfl⟩
    · rintro ⟨e, he, dc, mc, pc, h1, h2, h3, rfl⟩
      exact ⟨(dc, mc, pc), List.mem_filterMap.mpr
        ⟨e, he, dogRowAt_eq_some.mpr ⟨h1, h2, h3⟩⟩, rfl⟩

/-- Claim C10: on every reachable store, `add_cat` leaves `get_all_dogs`
unchanged and `add_dog` leaves `get_all_cats` unchanged, while each creation
call appends exactly one record — built from its inputs and the fresh uuid —
to its own subtype's query result. -/
theorem creation_frame_spec (s : PetState) (h : Reachable s)
    (dn dh db : String) (dhh : Bool) (dt : F64) (dk : Int)
    (cn ch cb : String) (chh : Bool) (cd ck : Bool) :
    (s.add_cat cn ch cb chh cd ck).1.get_all_dogs = s.get_all_dogs
    ∧ (s.add_dog dn dh db dhh dt dk).1.get_all_cats = s.get_all_cats
    ∧ (s.add_dog dn dh db dhh dt dk).1.get_all_dogs = s.get_all_dogs ++
        [{ pet := { uuid := (s.add_dog dn dh db dhh dt dk).2, name := dn },
           mammal := { hair_color := dh, breed := db, has_hair := dhh },
           dog_specific := { tail_length := dt, num_commands_known := dk } }]
    ∧ (s.add_cat cn ch cb chh cd ck).1.get_all_cats = s.get_all_cats ++
        [{ pet := { uuid := (s.add_cat cn ch cb chh cd ck).2, name := cn },
           mammal := { hair_color := ch, breed := cb, has_hair := chh },
           cat_specific := { declawed := cd, sits_on_keyboard := ck } }] := by
  have hi := reachable_stateInv h
  refine ⟨?_, ?_, ?_, ?_⟩
  · unfold PetState.get_all_dogs
    rw [joinDogRows_add_cat s cn ch cb chh cd ck hi]
  · unfold PetState.get_all_cats
    rw [joinCatRows_add_dog s dn dh db dhh dt dk hi]
  · unfold PetState.get_all_dogs
    rw [joinDogRows_add_dog, List.map_append]
    rfl
  · unfold PetState.get_all_cats
    rw [joinCatRows_add_cat, List.map_append]
    rfl

theorem creation_frame_spec_witness :
    (PetState.new.add_cat "Berlioz" "black" "shorthair" true true false).1.get_all_dogs =
      PetState.new.get_all_dogs :=
  (creation_frame_spec PetState.new Reachable.new "Shippen" "gray" "schnauzer" true
    { bits := 2 } 42 "Berlioz" "black" "shorthair" true true false).1
